import Mathlib

/-!
# Verification of the k6-k8s-operator coordination logic

A shallow embedding, in Lean 4, of the coordination logic of the k6-k8s
Juju charm (`src/k6.py` and `src/charm.py`): the per-unit records kept in
the peer relation databag, the leader's readiness barrier, the k6 HTTP
control call, status aggregation, the relation-changed reconciliation and
the `start` action handler.

Conventions of the embedding:
* Python dicts that the code writes with a fixed shape (`{"endpoint": ...,
  "status": ...}`, the app databag record) become Lean structures.  A
  missing databag entry (or the cleared `""` entry, which is falsy exactly
  like a missing one) becomes `none`.
* Python exceptions become `Except PyErr`.  Where the source performs
  writes before an exception escapes, the embedding returns the state as
  mutated so far together with a success flag.
* Machine-level collaborators (the container filesystem, the HTTP stack,
  Pebble) are passed in as explicit parameters (`files : String → Option
  String`, `resumeOk : String → Bool`, `serviceRunning : Bool`); the
  embedding records the calls the code would make to them.
-/

set_option autoImplicit false

namespace K6Model

/-- Python exceptions that the embedded code can raise. -/
inductive PyErr where
  | attributeError
  | valueError
  | pathError
  | httpError
deriving Repr, DecidableEq

instance {ε α : Type} [DecidableEq ε] [DecidableEq α] : DecidableEq (Except ε α) :=
  fun a b =>
    match a, b with
    | .error x, .error y =>
      if h : x = y then .isTrue (by rw [h]) else .isFalse (by intro hc; cases hc; exact h rfl)
    | .error _, .ok _ => .isFalse (by intro hc; cases hc)
    | .ok _, .error _ => .isFalse (by intro hc; cases hc)
    | .ok x, .ok y =>
      if h : x = y then .isTrue (by rw [h]) else .isFalse (by intro hc; cases hc; exact h rfl)

/-- `K6Status.idle.value` in `k6.py`: a unit ready to accept a new test. -/
def idleStatus : String := "idle"

/-- `K6Status.busy.value` in `k6.py`: a unit currently executing `k6 run`
(even if paused). -/
def busyStatus : String := "busy"

/-- The per-unit record this charm writes to the unit databag:
`{"endpoint": self.endpoint, "status": ...}` (`k6.py`). -/
structure Record where
  endpoint : String
  status : String
deriving Repr, DecidableEq

/-- The `labels` sub-dict of the app databag record written by `K6.run`. -/
structure Labels where
  test_uuid : String
  date : String
deriving Repr, DecidableEq

/-- The app databag record written by `K6.run`
(`{"script_path": ..., "vus": ..., "labels": ..., "status": ...}`).
An absent or empty-string field is represented by `""`/`0`, which are falsy
in Python exactly like a missing key at every place the source reads them
(always through `.get` plus truthiness, or after a truthiness guard). -/
structure AppData where
  script_path : String
  vus : Nat
  labels : Labels
  status : String
deriving Repr, DecidableEq

/-! ## K6Api (`k6.py`, `K6Api`) -/

/-- The JSON payload `{"data": {"attributes": {"paused": ...}}}`. -/
structure StatusAttributes where
  paused : Bool
deriving Repr, DecidableEq

/-- The `"data"` object of the status payload. -/
structure StatusData where
  attributes : StatusAttributes
deriving Repr, DecidableEq

/-- The body of the PATCH request `K6Api.resume` sends. -/
structure StatusPayload where
  data : StatusData
deriving Repr, DecidableEq

/-- `k6_resume_payload` in `K6Api.resume`:
`{"data": {"attributes": {"paused": True}}}`. -/
def k6_resume_payload : StatusPayload := ⟨⟨⟨true⟩⟩⟩

/-- The URL `K6Api.resume` targets: `f"http://\x7bendpoint\x7d/status"`. -/
def resumeUrl (endpoint : String) : String := "http://" ++ endpoint ++ "/status"

/-- The HTTP method `K6Api.resume` uses. -/
def resumeMethod : String := "PATCH"

/-- `K6Api._request` raises when `retcode := response.getcode() != 200`
is truthy, i.e. exactly when the response code differs from 200. -/
def requestRejects (code : Nat) : Bool := code ≠ 200

/-- A 2xx (success-class) HTTP status code.  This is the spec's notion
("non-2xx response is a release failure"), kept for comparison with
`requestRejects`. -/
def is2xx (code : Nat) : Bool := 200 ≤ code && code ≤ 299

/-! ## Parsing `vus` from a script (`K6._get_vus_from_script`) -/

/-- Characters matched by the regex class `\s` (ASCII range). -/
def isReSpace (c : Char) : Bool :=
  c = ' ' || c = '\t' || c = '\n' || c = '\x0d' || c = '\x0b' || c = '\x0c'

/-- Value of a decimal digit string, as `int(...)` computes it. -/
def digitsToNat (ds : List Char) : Nat :=
  ds.foldl (fun n c => 10 * n + (c.toNat - 48)) 0

/-- Try to match the regex `vus:\s*(\d+)` at the head of `cs`,
returning the captured number. -/
def matchVusAt : List Char → Option Nat
  | 'v' :: 'u' :: 's' :: ':' :: rest =>
    let afterWs := rest.dropWhile isReSpace
    let ds := afterWs.takeWhile Char.isDigit
    if ds.isEmpty then none else some (digitsToNat ds)
  | _ => none

/-- `re.search(r"vus:\s*(\d+)", script)`: scan left to right for the first
position where the pattern matches, returning the captured group. -/
def searchVus : List Char → Option Nat
  | [] => none
  | c :: rest =>
    match matchVusAt (c :: rest) with
    | some n => some n
    | none => searchVus rest

/-- The number the regex in `K6._get_vus_from_script` extracts from a
script's content, if any. -/
def getVus (script : String) : Option Nat := searchVus script.toList

/-- `K6._default_script_path` (also `K6K8sCharm._default_script_path`). -/
def defaultScriptPath : String := "/etc/k6/scripts/juju-config-script.js"

/-- `K6._get_vus_from_script(script_path)`.  NOTE: faithful to the source,
which pulls `self._default_script_path` from the container regardless of
the `script_path` argument; a missing file raises (pebble `PathError`),
an unparsable script raises `ValueError`. -/
def get_vus_from_script (files : String → Option String) (script_path : String) :
    Except PyErr Nat :=
  match files defaultScriptPath with
  | none => .error .pathError
  | some script =>
    match getVus script with
    | none => .error .valueError
    | some vus => .ok vus

/-- `K6.run(script_path)`: parse the vus, then publish the app databag
record (the cluster-wide run record).  `test_uuid` and `start_time` are
generated from the environment and passed in explicitly.  On an exception
from parsing, nothing is written; the caller's store is untouched. -/
def run (files : String → Option String) (script_path : String)
    (test_uuid start_time : String) : Except PyErr AppData :=
  match get_vus_from_script files script_path with
  | .error e => .error e
  | .ok vus =>
    .ok { script_path := script_path, vus := vus,
          labels := { test_uuid := test_uuid, date := start_time },
          status := idleStatus }

/-- `K6.run` acting on the app databag: an exception leaves the store
unchanged, a normal return replaces it with the new record.  The second
component records whether the run was created. -/
def runOnStore (files : String → Option String) (script_path : String)
    (test_uuid start_time : String) (store : Option AppData) :
    Option AppData × Bool :=
  match run files script_path test_uuid start_time with
  | .error _ => (store, false)
  | .ok d => (some d, true)

/-! ## Scans over the per-unit records

`K6.get_all_peer_unit_data` returns `None` when there is no peer relation
and otherwise a dict with one entry per unit, `[*self.peers.units,
self._charm.unit]` in that order; a unit that has not yet written its
record maps to `None`.  A peer-record collection is therefore modelled as
`Option (List (Option Record))`, other units first, the local unit last.
Reading `.get("status")`/`.get("endpoint")` on a `None` entry raises
`AttributeError`; Python's `all`/`any` short-circuit, so a later `None`
after a deciding element is never touched. -/

/-- The generator inside `K6.are_all_units_in_status`:
`all(unit_data.get("status") == status.value for unit_data in values)`. -/
def allInStatusE (st : String) : List (Option Record) → Except PyErr Bool
  | [] => .ok true
  | none :: _ => .error .attributeError
  | some r :: rest => if r.status = st then allInStatusE st rest else .ok false

/-- The generator inside `K6.is_running`:
`any(unit_data.get("status") == busy for unit_data in values)`. -/
def anyInStatusE (st : String) : List (Option Record) → Except PyErr Bool
  | [] => .ok false
  | none :: _ => .error .attributeError
  | some r :: rest => if r.status = st then .ok true else anyInStatusE st rest

/-- `K6.are_all_units_in_status(status)`: `False` when there is no peer
data, otherwise the `all` scan. -/
def are_all_units_in_status (peerData : Option (List (Option Record))) (st : String) :
    Except PyErr Bool :=
  match peerData with
  | none => .ok false
  | some recs => if recs = [] then .ok false else allInStatusE st recs

/-- `K6.is_running()`: `False` when there is no peer data, otherwise `any`
unit record reports the busy status. -/
def is_running (peerData : Option (List (Option Record))) : Except PyErr Bool :=
  match peerData with
  | none => .ok false
  | some recs => if recs = [] then .ok false else anyInStatusE busyStatus recs

/-! ## Status aggregation (`K6._collect_app_status`) -/

/-- `len([d for d in peer_data.values() if d.get("status") == busy])`:
the list comprehension touches every entry, so any `None` record raises. -/
def countBusyE : List (Option Record) → Except PyErr Nat
  | [] => .ok 0
  | none :: _ => .error .attributeError
  | some r :: rest =>
    match countBusyE rest with
    | .error e => .error e
    | .ok n => .ok ((if r.status = busyStatus then 1 else 0) + n)

/-- The status string for no busy unit. -/
def idleMessage : String := "k6 status: idle"

/-- The status string `f"k6 status: busy (\x7bbusy_units\x7d/\x7bunits\x7d units)"`. -/
def busyMessage (k n : Nat) : String :=
  "k6 status: busy (" ++ toString k ++ "/" ++ toString n ++ " units)"

/-- `K6._collect_app_status`: the status it adds for the application,
given the peer records and `planned` (`self._charm.app.planned_units()`). -/
def collect_app_status (peerData : Option (List (Option Record))) (planned : Nat) :
    Except PyErr String :=
  match peerData with
  | none => .ok idleMessage
  | some recs =>
    if recs = [] then .ok idleMessage
    else
      match countBusyE recs with
      | .error e => .error e
      | .ok k => if k = 0 then .ok idleMessage else .ok (busyMessage k planned)

/-- The record predicate behind the busy count, stated directly. -/
def isBusyRec : Option Record → Bool
  | some r => r.status == busyStatus
  | none => false

/-- The number of records reporting the busy status. -/
def specBusyCount (recs : List (Option Record)) : Nat := recs.countP isBusyRec

/-! ## The Pebble layer (`K6._pebble_layer`) -/

/-- The service command assembled by `K6._pebble_layer` (each f-string
fragment ends in a space, exactly as in the source). -/
def layerCommand (script_path : String) (vus : Nat) (address : String)
    (labelsArgs envArgs : List String) (lokiArg : String) : String :=
  "/bin/bash -c 'k6 run " ++ script_path ++ " " ++
  "--vus " ++ toString vus ++ " " ++
  "--address " ++ address ++ " " ++
  String.intercalate " " labelsArgs ++ " " ++
  String.intercalate " " envArgs ++ " " ++
  "-o experimental-prometheus-rw " ++
  lokiArg ++ " " ++
  "; pebble notify k6.com/done'"

/-- `K6._pebble_layer`: with no app data it returns an empty `Layer()`
(`none` here); otherwise the layer whose service command is built from the
app data's `script_path` and `vus` — the stored total, no division by any
node count.  `address`, label/environment args and the Loki arg come from
collaborators and are passed through. -/
def pebble_layer (data : Option AppData) (address : String)
    (labelsArgs envArgs : List String) (lokiArg : String) : Option String :=
  match data with
  | none => none
  | some d => some (layerCommand d.script_path d.vus address labelsArgs envArgs lokiArg)

/-! ## The leader barrier (`K6._start_test_if_ready`) and reconciliation
(`K6._on_relation_changed`) -/

/-- Process-level calls the reconciliation issues against its
collaborators (Pebble, the k6 HTTP API). -/
inductive Action where
  | stopService
  | addLayer
  | replan
  | startService
  | resume (endpoint : String)
deriving Repr, DecidableEq

/-- Ambient facts of one unit's charm: leadership, this unit's control
endpoint (`K6.endpoint`), and which endpoints' `K6Api.resume` calls
succeed (the HTTP collaborator). -/
structure Env where
  isLeader : Bool
  selfEndpoint : String
  resumeOk : String → Bool

/-- The state one reconciliation acts on: the app databag record, this
unit's record, the other units' records (in `peers.units` order), and
whether the local k6 service is running. -/
structure ChState where
  app : Option AppData
  selfRec : Option Record
  others : List (Option Record)
  serviceRunning : Bool
deriving Repr, DecidableEq

/-- `get_all_peer_unit_data()` as seen with the peer relation present:
`[*self.peers.units, self._charm.unit]`, the local unit last. -/
def allUnitData (s : ChState) : List (Option Record) := s.others ++ [s.selfRec]

/-- `[unit_data.get("endpoint") for unit_data in peer_data.values()]`:
raises on a missing record. -/
def endpointsE : List (Option Record) → Except PyErr (List String)
  | [] => .ok []
  | none :: _ => .error .attributeError
  | some r :: rest =>
    match endpointsE rest with
    | .error e => .error e
    | .ok es => .ok (r.endpoint :: es)

/-- `for endpoint in endpoints: K6Api.resume(endpoint=endpoint)`: the
calls are issued in order; the first failing call raises, so no later
endpoint is called.  Returns the calls actually issued and whether the
loop completed. -/
def resumeLoop (resumeOk : String → Bool) : List String → List Action × Bool
  | [] => ([], true)
  | e :: rest =>
    if resumeOk e then
      let r := resumeLoop resumeOk rest
      (.resume e :: r.1, r.2)
    else ([.resume e], false)

/-- The empty dict `app_data = self.get_peer_data(self._charm.app) or {}`
materialises as the all-falsy record. -/
def emptyAppData : AppData := ⟨"", 0, ⟨"", ""⟩, ""⟩

/-- `K6._start_test_if_ready`, run on the leader with the peer relation
present (so `peer_data` is a non-empty dict and the first guard reduces to
the readiness check).  Returns the state after its writes, the calls
issued, and whether it returned without raising. -/
def start_test_if_ready (env : Env) (s : ChState) : ChState × List Action × Bool :=
  match allInStatusE busyStatus (allUnitData s) with
  | .error _ => (s, [], false)
  | .ok false => (s, [], true)
  | .ok true =>
    let old := s.app.getD emptyAppData
    let s' := { s with app := some { old with status := busyStatus } }
    -- `peer_data` was captured by the walrus before the app write, and the
    -- app write does not touch the unit records it holds
    match endpointsE (allUnitData s) with
    | .error _ => (s', [], false)
    | .ok es =>
      let r := resumeLoop env.resumeOk es
      (s', r.1, r.2)

/-- The `try: container.stop(...); set_peer_data(unit, idle) except
APIError` block of `K6._on_relation_changed`: when the service is running
the stop succeeds and the unit record is rewritten to idle; when it is
not, `stop` raises `APIError`, the handler logs it, and the record write
inside the same `try` block is skipped. -/
def stopBranch (env : Env) (s : ChState) : ChState × List Action × Bool :=
  if s.serviceRunning then
    ({ s with serviceRunning := false,
              selfRec := some ⟨env.selfEndpoint, idleStatus⟩ }, [.stopService], true)
  else (s, [.stopService], true)

/-- `K6._on_relation_changed`, with the peer relation present (the event
only fires for an existing relation).  Returns the state after the
handler, the process calls issued, and whether it completed without an
uncaught exception. -/
def step (env : Env) (s : ChState) : ChState × List Action × Bool :=
  match s.app with
  | none => stopBranch env s
  | some a =>
    if a.script_path = "" ∨ a.vus = 0 then stopBranch env s
    else if a.status = idleStatus then
      let s1 := { s with serviceRunning := true,
                         selfRec := some ⟨env.selfEndpoint, busyStatus⟩ }
      let acts := [Action.addLayer, Action.replan, Action.startService]
      if env.isLeader then
        let r := start_test_if_ready env s1
        (r.1, acts ++ r.2.1, r.2.2)
      else (s1, acts, true)
    else if env.isLeader ∧ a.status = busyStatus then
      match allInStatusE idleStatus (allUnitData s) with
      | .error _ => (s, [], false)
      | .ok true => ({ s with app := none }, [], true)
      | .ok false => (s, [], true)
    else (s, [], true)

/-- The databag contents a state carries (what `_on_relation_changed` can
read and write through the store): the app record and the unit records. -/
def storeOf (s : ChState) : Option AppData × Option Record × List (Option Record) :=
  (s.app, s.selfRec, s.others)

/-! ## The `start` action (`charm.py`, `K6K8sCharm._on_start_action`) -/

/-- How the `start` action can end. -/
inductive StartOutcome where
  | failNotLeader
  | failAlreadyRunning
  | failNoScript
  | raised (e : PyErr)
  | started
deriving Repr, DecidableEq

/-- `K6K8sCharm._scripts_folder`. -/
def scriptsFolder : String := "/etc/k6/scripts"

/-- Python renders `None` in an f-string as `"None"`. -/
def fmtOpt : Option String → String
  | none => "None"
  | some s => s

/-- `K6K8sCharm._on_start_action`: leader check, then the
`is_running` guard, script-path selection (`if target_test` is Python
truthiness, so an empty string also selects the default script),
existence check, then `K6.run`.  Returns the app databag after the
handler and the outcome. -/
def on_start_action (isLeader : Bool) (peerData : Option (List (Option Record)))
    (files : String → Option String) (targetApp targetTest : Option String)
    (test_uuid start_time : String) (store : Option AppData) :
    Option AppData × StartOutcome :=
  if ¬ isLeader then (store, .failNotLeader)
  else
    match is_running peerData with
    | .error e => (store, .raised e)
    | .ok true => (store, .failAlreadyRunning)
    | .ok false =>
      let script_path :=
        match targetTest with
        | some t =>
          if t = "" then defaultScriptPath
          else scriptsFolder ++ "/" ++ fmtOpt targetApp ++ "/" ++ t
        | none => defaultScriptPath
      if (files script_path).isSome then
        match run files script_path test_uuid start_time with
        | .error e => (store, .raised e)
        | .ok d => (some d, .started)
      else (store, .failNoScript)

/-- Substring test used to talk about the generated command line:
does `pat` occur contiguously in `text`? -/
def startsWithSeq : List Char → List Char → Bool
  | [], _ => true
  | _ :: _, [] => false
  | p :: ps, c :: cs => p = c && startsWithSeq ps cs

/-- `pat` occurs contiguously somewhere in `text`. -/
def hasRunOf (pat : List Char) : List Char → Bool
  | [] => pat.isEmpty
  | c :: rest => startsWithSeq pat (c :: rest) || hasRunOf pat rest

/-- String-level wrapper for `hasRunOf`. -/
def strContains (pat text : String) : Bool := hasRunOf pat.toList text.toList

/-! ## JSON marshalling (`json.dumps` / `json.loads` as used by
`K6.set_peer_data` / `K6.get_peer_data`)

The databag values this charm stores are JSON objects with string keys
whose values are strings, integers, booleans, `None` or nested objects /
arrays.  `JVal` is that fragment of Python's JSON values; `dumpV` mirrors
`json.dumps` with its default separators (`", "` and `": "`) on clean
ASCII strings (no character that `json.dumps` would escape), and the
fuel-indexed `parseVal` family mirrors `json.loads` on the same fragment
(integer numerals, no escape sequences). -/

/-- The modelled fragment of Python's JSON values. -/
inductive JVal where
  | jnull
  | jbool (b : Bool)
  | jint (n : Int)
  | jstr (s : String)
  | jarr (xs : List JVal)
  | jobj (kvs : List (String × JVal))

/-- The character `"{"` (written via its code so the brace stays out of
string literals). -/
def lbrace : Char := Char.ofNat 123

/-- The character `"}"`. -/
def rbrace : Char := Char.ofNat 125

/-- A character `json.dumps` emits verbatim inside a string: printable
ASCII, not the quote, not the backslash. -/
def cleanChar (c : Char) : Bool :=
  decide (32 ≤ c.toNat) && decide (c.toNat ≤ 126) && c ≠ '"' && c ≠ '\\'

mutual

/-- Well-formedness of a value for the marshalling model: every string in
it is clean. -/
def wfV : JVal → Bool
  | .jnull => true
  | .jbool _ => true
  | .jint _ => true
  | .jstr s => s.toList.all cleanChar
  | .jarr xs => wfL xs
  | .jobj kvs => wfM kvs

/-- Well-formedness of array elements. -/
def wfL : List JVal → Bool
  | [] => true
  | x :: rest => wfV x && wfL rest

/-- Well-formedness of object members. -/
def wfM : List (String × JVal) → Bool
  | [] => true
  | (k, v) :: rest => k.toList.all cleanChar && wfV v && wfM rest

end

/-- Decimal digits, most significant first, with explicit fuel (the fuel
is only to make the recursion structural; `natDigits` always supplies
enough). -/
def natDigitsAux : Nat → Nat → List Char
  | 0, n => [Char.ofNat (48 + n % 10)]
  | fuel + 1, n =>
    if n < 10 then [Char.ofNat (48 + n)]
    else natDigitsAux fuel (n / 10) ++ [Char.ofNat (48 + n % 10)]

/-- Decimal digits of a natural number, most significant first
(`str(n)` for a non-negative int). -/
def natDigits (n : Nat) : List Char := natDigitsAux n n

/-- `str(n)` for an int: a minus sign for negatives, then the digits. -/
def intChars (n : Int) : List Char :=
  if n < 0 then '-' :: natDigits (-n).toNat else natDigits n.toNat

mutual

/-- `json.dumps` (default separators) of a value, as characters. -/
def dumpV : JVal → List Char
  | .jnull => ['n', 'u', 'l', 'l']
  | .jbool true => ['t', 'r', 'u', 'e']
  | .jbool false => ['f', 'a', 'l', 's', 'e']
  | .jint n => intChars n
  | .jstr s => '"' :: s.toList ++ ['"']
  | .jarr [] => ['[', ']']
  | .jarr (x :: rest) => '[' :: dumpV x ++ dumpL rest ++ [']']
  | .jobj [] => [lbrace, rbrace]
  | .jobj ((k, v) :: rest) =>
    lbrace :: '"' :: k.toList ++ '"' :: ':' :: ' ' :: dumpV v ++ dumpM rest ++ [rbrace]

/-- The `", elem"` tail of a dumped array. -/
def dumpL : List JVal → List Char
  | [] => []
  | x :: rest => ',' :: ' ' :: dumpV x ++ dumpL rest

/-- The `", "key": value"` tail of a dumped object. -/
def dumpM : List (String × JVal) → List Char
  | [] => []
  | (k, v) :: rest => ',' :: ' ' :: '"' :: k.toList ++ '"' :: ':' :: ' ' :: dumpV v ++ dumpM rest

end

mutual

/-- Structural size used to budget the parser's fuel. -/
def szV : JVal → Nat
  | .jnull => 1
  | .jbool _ => 1
  | .jint _ => 1
  | .jstr _ => 1
  | .jarr xs => 1 + szL xs
  | .jobj kvs => 1 + szM kvs

/-- Size of array elements. -/
def szL : List JVal → Nat
  | [] => 0
  | x :: rest => 1 + szV x + szL rest

/-- Size of object members. -/
def szM : List (String × JVal) → Nat
  | [] => 0
  | (_, v) :: rest => 1 + szV v + szM rest

end

/-- JSON whitespace (`json.loads` skips these between tokens). -/
def jsonWs (c : Char) : Bool := c = ' ' || c = '\t' || c = '\n' || c = '\x0d'

/-- Skip JSON whitespace. -/
def skipWs (cs : List Char) : List Char := cs.dropWhile jsonWs

/-- Consume an expected literal tail (the `ull` of `null`, ...). -/
def dropLit : List Char → List Char → Option (List Char)
  | [], cs => some cs
  | _ :: _, [] => none
  | p :: ps, c :: cs => if p = c then dropLit ps cs else none

/-- Parse a string body after the opening quote, up to the closing
quote (the modelled fragment has no escape sequences). -/
def parseStrBody (cs : List Char) : Option (String × List Char) :=
  let notEnd : Char → Bool := fun c => !(c = '"' || c = '\\')
  match cs.dropWhile notEnd with
  | '"' :: rest => some (String.mk (cs.takeWhile notEnd), rest)
  | _ => none

/-- Parse an integer numeral. -/
def parseNumTok (cs : List Char) : Option (Int × List Char) :=
  match cs with
  | [] => none
  | c :: rest =>
    if c = '-' then
      if (rest.takeWhile Char.isDigit).isEmpty then none
      else some (-(digitsToNat (rest.takeWhile Char.isDigit) : Int),
                 rest.dropWhile Char.isDigit)
    else
      if ((c :: rest).takeWhile Char.isDigit).isEmpty then none
      else some ((digitsToNat ((c :: rest).takeWhile Char.isDigit) : Int),
                 (c :: rest).dropWhile Char.isDigit)

mutual

/-- Fuel-indexed JSON value parser (`json.loads` on the fragment). -/
def parseVal : Nat → List Char → Option (JVal × List Char)
  | 0, _ => none
  | fuel + 1, cs =>
    match skipWs cs with
    | [] => none
    | c :: rest =>
      if c = 'n' then (dropLit ['u', 'l', 'l'] rest).map (fun r => (.jnull, r))
      else if c = 't' then (dropLit ['r', 'u', 'e'] rest).map (fun r => (.jbool true, r))
      else if c = 'f' then (dropLit ['a', 'l', 's', 'e'] rest).map (fun r => (.jbool false, r))
      else if c = '"' then (parseStrBody rest).map (fun p => (.jstr p.1, p.2))
      else if c = '[' then
        if (skipWs rest).head? = some ']' then some (.jarr [], (skipWs rest).tail)
        else parseItems fuel rest []
      else if c = lbrace then
        if (skipWs rest).head? = some rbrace then some (.jobj [], (skipWs rest).tail)
        else parseMembers fuel rest []
      else (parseNumTok (c :: rest)).map (fun p => (.jint p.1, p.2))

/-- Parse the elements of a non-empty array, accumulating in order. -/
def parseItems : Nat → List Char → List JVal → Option (JVal × List Char)
  | 0, _, _ => none
  | fuel + 1, cs, acc =>
    match parseVal fuel cs with
    | none => none
    | some (v, rest) =>
      match skipWs rest with
      | [] => none
      | c :: rest' =>
        if c = ',' then parseItems fuel rest' (acc ++ [v])
        else if c = ']' then some (.jarr (acc ++ [v]), rest')
        else none

/-- Parse the members of a non-empty object, accumulating in order. -/
def parseMembers : Nat → List Char → List (String × JVal) → Option (JVal × List Char)
  | 0, _, _ => none
  | fuel + 1, cs, acc =>
    match skipWs cs with
    | [] => none
    | c :: rest =>
      if c = '"' then
        match parseStrBody rest with
        | none => none
        | some (k, rest1) =>
          match skipWs rest1 with
          | [] => none
          | c1 :: rest2 =>
            if c1 = ':' then
              match parseVal fuel rest2 with
              | none => none
              | some (v, rest3) =>
                match skipWs rest3 with
                | [] => none
                | c2 :: rest4 =>
                  if c2 = ',' then parseMembers fuel rest4 (acc ++ [(k, v)])
                  else if c2 = rbrace then some (.jobj (acc ++ [(k, v)]), rest4)
                  else none
            else none
      else none

end

/-- A suffix that cannot extend a numeral: empty, or starting with a
non-digit. -/
def numBoundary (cs : List Char) : Prop :=
  ∀ c cs', cs = c :: cs' → c.isDigit = false

/-- `json.dumps` of a value, as a string. -/
def dumps (v : JVal) : String := String.mk (dumpV v)

/-- `json.loads`: parse one value; anything but trailing whitespace after
it is an error ("Extra data"). -/
def loads (s : String) : Option JVal :=
  match parseVal (s.length + 1) s.toList with
  | some (v, rest) => if skipWs rest = [] then some v else none
  | none => none

/-- `K6.set_peer_data(databag, data)`: without the peer relation it is a
no-op; with it, the databag's `"k6"` key is set to `json.dumps(data)`.
The modelled databag state is that key's entry (`none` = key absent). -/
def set_peer_data (hasPeers : Bool) (bag : Option String) (d : List (String × JVal)) :
    Option String :=
  if hasPeers then some (dumps (.jobj d)) else bag

/-- `K6.clear_peer_data(databag)`: no-op without the relation, else the
`"k6"` entry is set to the empty string. -/
def clear_peer_data (hasPeers : Bool) (bag : Option String) : Option String :=
  if hasPeers then some "" else bag

/-- `K6.get_peer_data(databag)`: `None` without the relation; otherwise
`json.loads(data) if data else None`, where a missing key and the empty
string are both falsy; an unparsable entry raises out of `json.loads`. -/
def get_peer_data (hasPeers : Bool) (bag : Option String) : Except PyErr (Option JVal) :=
  if hasPeers then
    match bag with
    | none => .ok none
    | some s =>
      if s = "" then .ok none
      else
        match loads s with
        | some v => .ok (some v)
        | none => .error .valueError
  else .ok none

/-! ## Concrete scenarios used by witnesses and counterexamples -/

/-- Concrete scenario for the C1 witness: leader, both units busy. -/
def envAllOk : Env := ⟨true, "self:6565", fun _ => true⟩

/-- Concrete state for the C1 witness. -/
def sAllBusy : ChState :=
  ⟨some ⟨"/s.js", 10, ⟨"u", "d"⟩, idleStatus⟩,
   some ⟨"self:6565", busyStatus⟩, [some ⟨"peer:6565", busyStatus⟩], true⟩

/-- Container contents for the C3 scenario: the pushed script declares
`vus: 10`. -/
def filesVus10 : String → Option String :=
  fun p => if p = defaultScriptPath then some "vus: 10" else none

/-- The app record `K6.run` writes in the C3 scenario. -/
def recordVus10 : AppData := ⟨defaultScriptPath, 10, ⟨"u", "t"⟩, idleStatus⟩

/-- Peer records for the C4 counterexample: one unit, still idle. -/
def unitsIdleOne : Option (List (Option Record)) := some [some ⟨"a:6565", idleStatus⟩]

/-- App databag for the C4 counterexample: a run record is present
(the run's phase is not Idle), but no unit has turned busy yet. -/
def storePending : Option AppData := some ⟨defaultScriptPath, 10, ⟨"old", "old"⟩, idleStatus⟩

/-- Leader environment in which the resume call to `"a:6565"` fails. -/
def envFailA : Env := ⟨true, "b:6565", fun e => e != "a:6565"⟩

/-- Two busy units; the failing one is enumerated first. -/
def sBothBusy : ChState :=
  ⟨some ⟨"/s.js", 10, ⟨"u", "d"⟩, idleStatus⟩,
   some ⟨"b:6565", busyStatus⟩, [some ⟨"a:6565", busyStatus⟩], true⟩

/-- Peer records for the C6 witness: `{A: busy, B: busy, C: idle}`. -/
def recsTwoBusy : List (Option Record) :=
  [some ⟨"a:6565", busyStatus⟩, some ⟨"b:6565", busyStatus⟩, some ⟨"c:6565", idleStatus⟩]

/-- A non-leader environment for the C7 counterexample. -/
def envNonLeader : Env := ⟨false, "b:6565", fun _ => true⟩

/-- A state that reconciliation leaves entirely unchanged: valid app data
with the idle status, this unit already busy, service already running. -/
def sSteady : ChState :=
  ⟨some ⟨"/s.js", 10, ⟨"u", "d"⟩, idleStatus⟩, some ⟨"b:6565", busyStatus⟩, [], true⟩

/-- Container contents with a script that declares no vus. -/
def filesNoVus : String → Option String :=
  fun p => if p = defaultScriptPath then some "no virtual workers declared" else none

/-- Container contents where the default script and the requested script
declare different vus values. -/
def filesTwoScripts : String → Option String := fun p =>
  if p = defaultScriptPath then some "vus: 7"
  else if p = "/etc/k6/scripts/tester/load.js" then some "vus: 3" else none

/-- The unit record dict this charm stores, for the C10 witness. -/
def dRecordWitness : List (String × JVal) :=
  [("endpoint", .jstr "u0:6565"), ("status", .jstr "idle")]

/-! ## Helper lemmas about the scans -/

theorem allInStatusE_ok_true {st : String} :
    ∀ {l : List (Option Record)}, allInStatusE st l = .ok true →
      ∀ u ∈ l, ∃ r, u = some r ∧ r.status = st := by
  intro l
  induction l with
  | nil => intro _ u hu; cases hu
  | cons x rest ih =>
    intro h u hu
    match x with
    | none => simp [allInStatusE] at h
    | some r =>
      rw [allInStatusE] at h
      by_cases hst : r.status = st
      · rw [if_pos hst] at h
        rcases List.mem_cons.mp hu with rfl | hm
        · exact ⟨r, rfl, hst⟩
        · exact ih h u hm
      · rw [if_neg hst] at h
        simp at h

theorem endpointsE_ok_mem :
    ∀ {l : List (Option Record)} {es : List String}, endpointsE l = .ok es →
      ∀ e ∈ es, ∃ r, some r ∈ l ∧ r.endpoint = e := by
  intro l
  induction l with
  | nil =>
    intro es h e he
    rw [endpointsE] at h
    cases h
    cases he
  | cons x rest ih =>
    intro es h e he
    match x with
    | none => simp [endpointsE] at h
    | some r =>
      rw [endpointsE] at h
      cases hrest : endpointsE rest with
      | error err => rw [hrest] at h; cases h
      | ok es' =>
        rw [hrest] at h
        cases h
        rcases List.mem_cons.mp he with rfl | hm
        · exact ⟨r, List.mem_cons_self _ _, rfl⟩
        · obtain ⟨r', hr', he'⟩ := ih hrest e hm
          exact ⟨r', List.mem_cons_of_mem _ hr', he'⟩

theorem resumeLoop_mem {f : String → Bool} {e : String} :
    ∀ {es : List String}, Action.resume e ∈ (resumeLoop f es).1 → e ∈ es := by
  intro es
  induction es with
  | nil => intro h; cases h
  | cons e' rest ih =>
    intro h
    rw [resumeLoop] at h
    by_cases hf : f e' = true
    · rw [if_pos hf] at h
      rcases List.mem_cons.mp h with heq | hm
      · cases heq; exact List.mem_cons_self _ _
      · exact List.mem_cons_of_mem _ (ih hm)
    · rw [if_neg hf] at h
      rcases List.mem_cons.mp h with heq | hm
      · cases heq; exact List.mem_cons_self _ _
      · cases hm

/-! ## C1: release calls only after every unit's record is busy -/

/-- Claim C1: In `K6._start_test_if_ready`, a `K6Api.resume` call to an
endpoint `e` is issued only if every enumerated unit's record was observed
with the busy status, and `e` is the recorded endpoint of such a unit:
no release call is issued unless every unit's record reports busy. -/
theorem release_calls_require_all_units_busy (env : Env) (s : ChState) (e : String)
    (h : Action.resume e ∈ (start_test_if_ready env s).2.1) :
    (∀ u ∈ allUnitData s, ∃ r, u = some r ∧ r.status = busyStatus) ∧
    (∃ r, some r ∈ allUnitData s ∧ r.endpoint = e ∧ r.status = busyStatus) := by
  unfold start_test_if_ready at h
  cases hall : allInStatusE busyStatus (allUnitData s) with
  | error err => rw [hall] at h; simp at h
  | ok b =>
    cases b with
    | false => rw [hall] at h; simp at h
    | true =>
      rw [hall] at h
      simp only at h
      have hAll := allInStatusE_ok_true hall
      cases hep : endpointsE (allUnitData s) with
      | error err => rw [hep] at h; simp at h
      | ok es =>
        rw [hep] at h
        simp only at h
        have he : e ∈ es := resumeLoop_mem h
        obtain ⟨r, hr, hre⟩ := endpointsE_ok_mem hep e he
        obtain ⟨r', hr', hst'⟩ := hAll (some r) hr
        cases hr'
        exact ⟨hAll, r, hr, hre, hst'⟩

/-- Witness for C1 at a concrete input. -/
theorem release_calls_require_all_units_busy_witness :
    Action.resume "peer:6565" ∈ (start_test_if_ready envAllOk sAllBusy).2.1 ∧
    ((∀ u ∈ allUnitData sAllBusy, ∃ r, u = some r ∧ r.status = busyStatus) ∧
     (∃ r, some r ∈ allUnitData sAllBusy ∧ r.endpoint = "peer:6565" ∧
        r.status = busyStatus)) :=
  ⟨by decide,
   release_calls_require_all_units_busy envAllOk sAllBusy "peer:6565" (by decide)⟩

/-! ## C2: the release request -/

/-- Claim C2: The release call is a `PATCH` to `http://<endpoint>/status`,
but its body sets `paused` to `true` (the source's `k6_resume_payload`,
despite `resume`'s docstring "Resume a paused load test"), and
`K6Api._request` raises for every response code other than 200 — so 201,
a 2xx code, is treated as a failure.  This records the divergence of the
code from the claim at the failing inputs. -/
theorem resume_payload_pauses_and_non200_rejected :
    k6_resume_payload.data.attributes.paused = true ∧
    resumeMethod = "PATCH" ∧
    resumeUrl "a:6565" = "http://a:6565/status" ∧
    requestRejects 201 = true ∧ is2xx 201 = true ∧
    requestRejects 200 = false := by
  refine ⟨rfl, rfl, rfl, ?_, ?_, ?_⟩ <;> decide

/-! ## C3: no division of the concurrency across nodes -/

/-- Claim C3, counterexample: Starting a run with total concurrency 10
stores `vus = 10`, and the service command every node builds from that
record (here for a cluster of 2 nodes, whose size the layer never even
consults) runs with `--vus 10`, not with the share 5 the claim states. -/
theorem no_vus_division_counterexample :
    run filesVus10 defaultScriptPath "u" "t" = .ok recordVus10 ∧
    pebble_layer (some recordVus10) "a:6565" [] [] "" =
      some (layerCommand defaultScriptPath 10 "a:6565" [] [] "") ∧
    strContains "--vus 10 " (layerCommand defaultScriptPath 10 "a:6565" [] [] "") = true ∧
    strContains "--vus 5" (layerCommand defaultScriptPath 10 "a:6565" [] [] "") = false :=
  ⟨rfl, rfl, by decide, by decide⟩

/-- Claim C3, amended: When a run with total concurrency `C` is started,
every node starts its local workload with the full `C`: `K6.run` stores
the undivided parsed value and `K6._pebble_layer` puts exactly that value
into the command, with no node count entering the computation. -/
theorem layer_uses_full_vus (files : String → Option String) (script sp u d : String)
    (C : Nat) (address : String) (labelsArgs envArgs : List String) (lokiArg : String)
    (hf : files defaultScriptPath = some script) (hp : getVus script = some C) :
    run files sp u d = .ok ⟨sp, C, ⟨u, d⟩, idleStatus⟩ ∧
    pebble_layer (some ⟨sp, C, ⟨u, d⟩, idleStatus⟩) address labelsArgs envArgs lokiArg =
      some (layerCommand sp C address labelsArgs envArgs lokiArg) := by
  constructor
  · unfold run get_vus_from_script
    rw [hf]
    dsimp only
    rw [hp]
  · rfl

/-- Witness for the amended C3 at a concrete input. -/
theorem layer_uses_full_vus_witness :
    filesVus10 defaultScriptPath = some "vus: 10" ∧ getVus "vus: 10" = some 10 ∧
    (run filesVus10 "/x.js" "u" "d" = .ok ⟨"/x.js", 10, ⟨"u", "d"⟩, idleStatus⟩ ∧
     pebble_layer (some ⟨"/x.js", 10, ⟨"u", "d"⟩, idleStatus⟩) "a:6565" [] [] "" =
       some (layerCommand "/x.js" 10 "a:6565" [] [] "")) :=
  ⟨rfl, rfl, layer_uses_full_vus filesVus10 "vus: 10" "/x.js" "u" "d" 10
    "a:6565" [] [] "" rfl rfl⟩

/-! ## C4: when a start request is rejected as "already running" -/

/-- Claim C4, counterexample: A start request issued while the cluster-wide
run record is present (phase not Idle) but no unit record is busy is NOT
rejected: `is_running()` only inspects unit records, so the action
proceeds and publishes a fresh run record over the existing one. -/
theorem start_accepted_while_record_present :
    storePending ≠ none ∧
    on_start_action true unitsIdleOne filesVus10 none none "new" "now" storePending =
      (some ⟨defaultScriptPath, 10, ⟨"new", "now"⟩, idleStatus⟩, .started) ∧
    (some ⟨defaultScriptPath, 10, ⟨"new", "now"⟩, idleStatus⟩ : Option AppData) ≠
      storePending := by
  refine ⟨by decide, rfl, by decide⟩

/-- Claim C4, amended: The "already running" guard is the unit records, not
the run record: whenever some unit's record reports busy, the start
request fails with the "already running" error and the app databag is
left unchanged (no new run record is published). -/
theorem start_rejected_when_unit_busy (peers : List (Option Record))
    (files : String → Option String) (targetApp targetTest : Option String)
    (u d : String) (store : Option AppData)
    (h : anyInStatusE busyStatus peers = .ok true) :
    on_start_action true (some peers) files targetApp targetTest u d store =
      (store, .failAlreadyRunning) := by
  have hrun : is_running (some peers) = .ok true := by
    unfold is_running
    cases peers with
    | nil => rw [anyInStatusE] at h; simp at h
    | cons x rest => dsimp only; rw [if_neg (by simp)]; exact h
  unfold on_start_action
  rw [if_neg (by simp), hrun]

/-- Witness for the amended C4 at a concrete input. -/
theorem start_rejected_when_unit_busy_witness :
    anyInStatusE busyStatus [some ⟨"a:6565", busyStatus⟩] = .ok true ∧
    on_start_action true (some [some ⟨"a:6565", busyStatus⟩]) filesVus10 none none
      "new" "now" storePending = (storePending, .failAlreadyRunning) :=
  ⟨by decide,
   start_rejected_when_unit_busy [some ⟨"a:6565", busyStatus⟩] filesVus10 none none
     "new" "now" storePending (by decide)⟩

/-! ## C5: a failing release call aborts the loop -/

/-- Claim C5, counterexample: When the release call to the first node
fails, the second node's release call is never issued and the barrier
release raises out of `_start_test_if_ready` (nothing is recorded
per-node): the failure does prevent the remaining calls. -/
theorem release_failure_aborts_loop_counterexample :
    (start_test_if_ready envFailA sBothBusy).2.1 = [Action.resume "a:6565"] ∧
    Action.resume "b:6565" ∉ (start_test_if_ready envFailA sBothBusy).2.1 ∧
    (start_test_if_ready envFailA sBothBusy).2.2 = false := by
  refine ⟨by decide, by decide, by decide⟩

/-- Claim C5, amended: The release loop issues calls in order up to and
including the first failing endpoint and stops there: the calls issued
are exactly the successful prefix plus the first failure, and the loop
completes without raising iff every call succeeds. -/
theorem resume_loop_first_failure (f : String → Bool) (es : List String) :
    resumeLoop f es =
      ((es.takeWhile f ++ (es.dropWhile f).take 1).map Action.resume, es.all f) := by
  induction es with
  | nil => rfl
  | cons e rest ih =>
    cases hf : f e with
    | true =>
      rw [resumeLoop, if_pos hf, ih]
      simp [List.takeWhile_cons, List.dropWhile_cons, hf]
    | false =>
      rw [resumeLoop, if_neg (by simp [hf])]
      simp [List.takeWhile_cons, List.dropWhile_cons, hf]

/-! ## C6: status aggregation -/

theorem countBusyE_ok :
    ∀ {recs : List (Option Record)}, (∀ x ∈ recs, x ≠ none) →
      countBusyE recs = .ok (specBusyCount recs) := by
  intro recs
  induction recs with
  | nil => intro _; rfl
  | cons x rest ih =>
    intro hsome
    match x with
    | none => exact absurd rfl (hsome none (List.mem_cons_self _ _))
    | some r =>
      rw [countBusyE, ih (fun y hy => hsome y (List.mem_cons_of_mem _ hy))]
      simp only [specBusyCount, List.countP_cons, isBusyRec]
      congr 1
      by_cases hb : r.status = busyStatus
      · simp [hb, Nat.add_comm]
      · simp [hb]

theorem busyMessage_ne_idleMessage (k n : Nat) : busyMessage k n ≠ idleMessage := by
  intro h
  have hl := congrArg String.length h
  rw [busyMessage, idleMessage] at hl
  have h1 : ("k6 status: busy (" : String).length = 17 := rfl
  have h2 : ("/" : String).length = 1 := rfl
  have h3 : (" units)" : String).length = 7 := rfl
  have h4 : ("k6 status: idle" : String).length = 15 := rfl
  simp only [String.length_append, h1, h2, h3, h4] at hl
  omega

/-- Claim C6: `_collect_app_status` is a pure function of the per-unit
records (all present): it reports the idle status exactly when no record
reports busy, and otherwise reports busy with the number `k` of busy
records out of the `planned` total. -/
theorem app_status_aggregation (recs : List (Option Record)) (planned : Nat)
    (hsome : ∀ x ∈ recs, x ≠ none) :
    (collect_app_status (some recs) planned = .ok idleMessage ↔
      ∀ r : Record, some r ∈ recs → r.status ≠ busyStatus) ∧
    (0 < specBusyCount recs →
      collect_app_status (some recs) planned =
        .ok (busyMessage (specBusyCount recs) planned)) := by
  have hzero : specBusyCount recs = 0 ↔
      ∀ r : Record, some r ∈ recs → r.status ≠ busyStatus := by
    rw [specBusyCount, List.countP_eq_zero]
    constructor
    · intro hall r hr hst
      have := hall (some r) hr
      simp [isBusyRec, hst] at this
    · intro hnone x hx
      match x with
      | none => simp [isBusyRec]
      | some r => simp [isBusyRec]; exact hnone r hx
  by_cases hrecs : recs = []
  · subst hrecs
    constructor
    · simp [collect_app_status]
    · intro hpos; simp [specBusyCount] at hpos
  · have hkey : collect_app_status (some recs) planned =
        (if specBusyCount recs = 0 then .ok idleMessage
         else .ok (busyMessage (specBusyCount recs) planned)) := by
      rw [collect_app_status, if_neg hrecs, countBusyE_ok hsome]
    constructor
    · rw [hkey]
      by_cases hc : specBusyCount recs = 0
      · rw [if_pos hc]
        exact ⟨fun _ => hzero.mp hc, fun _ => rfl⟩
      · rw [if_neg hc]
        exact ⟨fun h => absurd (Except.ok.inj h)
                 (busyMessage_ne_idleMessage (specBusyCount recs) planned),
               fun h => absurd (hzero.mpr h) hc⟩
    · intro hpos
      rw [hkey, if_neg (Nat.pos_iff_ne_zero.mp hpos)]

/-- Witness for C6: two busy records out of three planned units report
"busy (2/3 units)". -/
theorem app_status_aggregation_witness :
    (∀ x ∈ recsTwoBusy, x ≠ none) ∧ 0 < specBusyCount recsTwoBusy ∧
    collect_app_status (some recsTwoBusy) 3 =
      .ok (busyMessage (specBusyCount recsTwoBusy) 3) :=
  ⟨by decide, by decide,
   (app_status_aggregation recsTwoBusy 3 (by decide)).2 (by decide)⟩

/-! ## C7: reconciliation idempotence

Branch characterisations of `step` (the `_on_relation_changed` handler),
used to analyse what a second reconciliation does. -/

theorem allUnitData_mk (app : Option AppData) (sr : Option Record)
    (o : List (Option Record)) (b : Bool) :
    allUnitData ⟨app, sr, o, b⟩ = o ++ [sr] := rfl

theorem stopBranch_run_true (env : Env) (app : Option AppData) (sr : Option Record)
    (o : List (Option Record)) :
    stopBranch env ⟨app, sr, o, true⟩ =
      (⟨app, some ⟨env.selfEndpoint, idleStatus⟩, o, false⟩, [.stopService], true) := rfl

theorem stopBranch_run_false (env : Env) (app : Option AppData) (sr : Option Record)
    (o : List (Option Record)) :
    stopBranch env ⟨app, sr, o, false⟩ = (⟨app, sr, o, false⟩, [.stopService], true) := rfl

theorem step_app_none (env : Env) (sr : Option Record) (o : List (Option Record)) (b : Bool) :
    step env ⟨none, sr, o, b⟩ = stopBranch env ⟨none, sr, o, b⟩ := rfl

theorem step_app_invalid (env : Env) (a : AppData) (sr : Option Record)
    (o : List (Option Record)) (b : Bool) (h : a.script_path = "" ∨ a.vus = 0) :
    step env ⟨some a, sr, o, b⟩ = stopBranch env ⟨some a, sr, o, b⟩ := by
  unfold step
  dsimp only
  rw [if_pos h]

theorem step_idle_nonleader (env : Env) (a : AppData) (sr : Option Record)
    (o : List (Option Record)) (b : Bool) (h1 : ¬(a.script_path = "" ∨ a.vus = 0))
    (h2 : a.status = idleStatus) (hl : env.isLeader = false) :
    step env ⟨some a, sr, o, b⟩ =
      (⟨some a, some ⟨env.selfEndpoint, busyStatus⟩, o, true⟩,
       [Action.addLayer, Action.replan, Action.startService], true) := by
  unfold step
  dsimp only
  rw [if_neg h1, if_pos h2, hl]
  simp

theorem step_idle_leader (env : Env) (a : AppData) (sr : Option Record)
    (o : List (Option Record)) (b : Bool) (h1 : ¬(a.script_path = "" ∨ a.vus = 0))
    (h2 : a.status = idleStatus) (hl : env.isLeader = true) :
    step env ⟨some a, sr, o, b⟩ =
      ((start_test_if_ready env ⟨some a, some ⟨env.selfEndpoint, busyStatus⟩, o, true⟩).1,
       [Action.addLayer, Action.replan, Action.startService] ++
         (start_test_if_ready env ⟨some a, some ⟨env.selfEndpoint, busyStatus⟩, o, true⟩).2.1,
       (start_test_if_ready env ⟨some a, some ⟨env.selfEndpoint, busyStatus⟩, o, true⟩).2.2) := by
  unfold step
  dsimp only
  rw [if_neg h1, if_pos h2, hl]
  simp

theorem step_busy_leader (env : Env) (a : AppData) (sr : Option Record)
    (o : List (Option Record)) (b : Bool) (h1 : ¬(a.script_path = "" ∨ a.vus = 0))
    (h2 : a.status = busyStatus) (hl : env.isLeader = true) :
    step env ⟨some a, sr, o, b⟩ =
      (match allInStatusE idleStatus (o ++ [sr]) with
       | .error _ => (⟨some a, sr, o, b⟩, [], false)
       | .ok true => (⟨none, sr, o, b⟩, [], true)
       | .ok false => (⟨some a, sr, o, b⟩, [], true)) := by
  unfold step
  dsimp only
  rw [if_neg h1, if_neg (by rw [h2]; decide), if_pos ⟨hl, h2⟩]
  rfl

theorem step_other_status (env : Env) (a : AppData) (sr : Option Record)
    (o : List (Option Record)) (b : Bool) (h1 : ¬(a.script_path = "" ∨ a.vus = 0))
    (h2 : ¬ a.status = idleStatus) (h3 : ¬(env.isLeader = true ∧ a.status = busyStatus)) :
    step env ⟨some a, sr, o, b⟩ = (⟨some a, sr, o, b⟩, [], true) := by
  unfold step
  dsimp only
  rw [if_neg h1, if_neg h2, if_neg h3]

theorem stir_error (env : Env) (s : ChState) (e : PyErr)
    (h : allInStatusE busyStatus (allUnitData s) = .error e) :
    start_test_if_ready env s = (s, [], false) := by
  unfold start_test_if_ready
  rw [h]

theorem stir_not_ready (env : Env) (s : ChState)
    (h : allInStatusE busyStatus (allUnitData s) = .ok false) :
    start_test_if_ready env s = (s, [], true) := by
  unfold start_test_if_ready
  rw [h]

theorem stir_ready (env : Env) (s : ChState)
    (h : allInStatusE busyStatus (allUnitData s) = .ok true) :
    start_test_if_ready env s =
      (match endpointsE (allUnitData s) with
       | .error _ =>
         ({ s with app := some { s.app.getD emptyAppData with status := busyStatus } },
          [], false)
       | .ok es =>
         ({ s with app := some { s.app.getD emptyAppData with status := busyStatus } },
          (resumeLoop env.resumeOk es).1, (resumeLoop env.resumeOk es).2)) := by
  unfold start_test_if_ready
  rw [h]

theorem allInStatusE_busy_to_idle {l : List (Option Record)}
    (h : allInStatusE busyStatus l = .ok true) (hne : l ≠ []) :
    allInStatusE idleStatus l = .ok false := by
  cases l with
  | nil => exact absurd rfl hne
  | cons x rest =>
    match x with
    | none => rw [allInStatusE] at h; cases h
    | some r =>
      rw [allInStatusE] at h
      by_cases hb : r.status = busyStatus
      · rw [allInStatusE, if_neg (by rw [hb]; decide)]
      · rw [if_neg hb] at h
        simp at h

/-- Claim C7, amended: Store-level idempotence of `_on_relation_changed`:
running the reconciliation again immediately after a previous run leaves
the peer databags (app record and unit records) unchanged — every write
the second run performs rewrites a value that is already present.  The
hypothesis is the invariant, established by `K6._initialize` and
preserved by every write of the handler, that this unit's record (when
present) carries this unit's own endpoint. -/
theorem reconcile_store_idempotent (env : Env) (s : ChState)
    (hinv : ∀ r, s.selfRec = some r → r.endpoint = env.selfEndpoint) :
    storeOf (step env (step env s).1).1 = storeOf (step env s).1 := by
  obtain ⟨app, sr, o, b⟩ := s
  cases app with
  | none =>
    cases b with
    | true =>
      rw [step_app_none, stopBranch_run_true]
      rw [step_app_none, stopBranch_run_false]
    | false =>
      rw [step_app_none, stopBranch_run_false]
      rw [step_app_none, stopBranch_run_false]
  | some a =>
    by_cases hvalid : a.script_path = "" ∨ a.vus = 0
    · cases b with
      | true =>
        rw [step_app_invalid env a sr o true hvalid, stopBranch_run_true]
        rw [step_app_invalid env a _ o false hvalid, stopBranch_run_false]
      | false =>
        rw [step_app_invalid env a sr o false hvalid, stopBranch_run_false]
        rw [step_app_invalid env a sr o false hvalid, stopBranch_run_false]
    · by_cases hidle : a.status = idleStatus
      · cases hl : env.isLeader with
        | false =>
          rw [step_idle_nonleader env a sr o b hvalid hidle hl]
          rw [step_idle_nonleader env a _ o true hvalid hidle hl]
        | true =>
          rw [step_idle_leader env a sr o b hvalid hidle hl]
          cases hb : allInStatusE busyStatus
              (allUnitData ⟨some a, some ⟨env.selfEndpoint, busyStatus⟩, o, true⟩) with
          | error e =>
            rw [stir_error env _ e hb]
            rw [step_idle_leader env a _ o true hvalid hidle hl, stir_error env _ e hb]
          | ok ready =>
            cases ready with
            | false =>
              rw [stir_not_ready env _ hb]
              rw [step_idle_leader env a _ o true hvalid hidle hl, stir_not_ready env _ hb]
            | true =>
              rw [stir_ready env _ hb]
              have hsecond : storeOf (step env
                  ⟨some { a with status := busyStatus },
                   some ⟨env.selfEndpoint, busyStatus⟩, o, true⟩).1 =
                  (some { a with status := busyStatus },
                   some ⟨env.selfEndpoint, busyStatus⟩, o) := by
                have hv' : ¬({ a with status := busyStatus } : AppData).script_path = ""
                    ∧ ¬({ a with status := busyStatus } : AppData).vus = 0 := by
                  constructor
                  · intro hc; exact hvalid (Or.inl hc)
                  · intro hc; exact hvalid (Or.inr hc)
                rw [step_busy_leader env _ _ o true
                  (by intro hc; rcases hc with hc | hc
                      · exact hv'.1 hc
                      · exact hv'.2 hc)
                  rfl hl]
                rw [show allInStatusE idleStatus (o ++ [some ⟨env.selfEndpoint, busyStatus⟩]) =
                    .ok false from allInStatusE_busy_to_idle (by rw [← allUnitData_mk (some a)]; exact hb)
                    (by simp)]
                rfl
              cases hep : endpointsE
                  (allUnitData ⟨some a, some ⟨env.selfEndpoint, busyStatus⟩, o, true⟩) with
              | error e =>
                dsimp only [Option.getD]
                rw [hsecond]
                rfl
              | ok es =>
                dsimp only [Option.getD]
                rw [hsecond]
                rfl
      · by_cases hbl : env.isLeader = true ∧ a.status = busyStatus
        · rw [step_busy_leader env a sr o b hvalid hbl.2 hbl.1]
          cases hi : allInStatusE idleStatus (o ++ [sr]) with
          | error e =>
            dsimp only
            rw [step_busy_leader env a sr o b hvalid hbl.2 hbl.1, hi]
          | ok allIdle =>
            cases allIdle with
            | false =>
              dsimp only
              rw [step_busy_leader env a sr o b hvalid hbl.2 hbl.1, hi]
            | true =>
              dsimp only
              rw [step_app_none]
              obtain ⟨r, hr, hst⟩ := allInStatusE_ok_true hi sr (by simp)
              have hep := hinv r hr
              have hsr : sr = some ⟨env.selfEndpoint, idleStatus⟩ := by
                rw [hr]
                cases r with
                | mk e st => simp at hep hst; rw [hep, hst]
              cases b with
              | true =>
                rw [stopBranch_run_true]
                rw [storeOf, storeOf, hsr]
              | false =>
                rw [stopBranch_run_false]
        · rw [step_other_status env a sr o b hvalid hidle hbl]
          rw [step_other_status env a sr o b hvalid hidle hbl]

/-- Claim C7, counterexample: Reconciling on an unchanged snapshot is not
free of process actions: here the first run leaves the full state (store
and service) unchanged, yet the second run — on exactly the same snapshot
— re-issues the layer add, the replan and the service start. -/
theorem reconcile_reissues_actions_counterexample :
    (step envNonLeader sSteady).1 = sSteady ∧
    (step envNonLeader (step envNonLeader sSteady).1).2.1 =
      [Action.addLayer, Action.replan, Action.startService] ∧
    (step envNonLeader (step envNonLeader sSteady).1).2.1 ≠ [] := by
  refine ⟨by decide, by decide, by decide⟩

/-- Witness for the amended C7 at a concrete input. -/
theorem reconcile_store_idempotent_witness :
    (∀ r : Record, sSteady.selfRec = some r → r.endpoint = envNonLeader.selfEndpoint) ∧
    storeOf (step envNonLeader (step envNonLeader sSteady).1).1 =
      storeOf (step envNonLeader sSteady).1 :=
  ⟨fun r hr => by cases Option.some.inj hr; rfl,
   reconcile_store_idempotent envNonLeader sSteady
     (fun r hr => by cases Option.some.inj hr; rfl)⟩

/-! ## C8: unparsable concurrency aborts run creation before any write -/

/-- Claim C8: If the vus value cannot be parsed from the script content the
code reads, `K6.run` raises `ValueError` before any write: the app
databag (the cluster-wide run record) is left unchanged. -/
theorem unparsable_vus_aborts_run (files : String → Option String)
    (script sp u d : String) (store : Option AppData)
    (hf : files defaultScriptPath = some script) (hp : getVus script = none) :
    run files sp u d = .error .valueError ∧
    runOnStore files sp u d store = (store, false) := by
  have hrun : run files sp u d = .error .valueError := by
    unfold run get_vus_from_script
    rw [hf]
    dsimp only
    rw [hp]
  exact ⟨hrun, by rw [runOnStore, hrun]⟩

/-- Witness for C8 at a concrete input. -/
theorem unparsable_vus_aborts_run_witness :
    filesNoVus defaultScriptPath = some "no virtual workers declared" ∧
    getVus "no virtual workers declared" = none ∧
    (run filesNoVus "/x.js" "u" "d" = .error .valueError ∧
     runOnStore filesNoVus "/x.js" "u" "d" storePending = (storePending, false)) :=
  ⟨rfl, rfl, unparsable_vus_aborts_run filesNoVus "no virtual workers declared"
    "/x.js" "u" "d" storePending rfl rfl⟩

/-! ## C9: the vus is parsed from the default script, not the argument -/

/-- Claim C9: `K6._get_vus_from_script(script_path)` ignores its argument
and always pulls `_default_script_path`: asked about
`/etc/k6/scripts/tester/load.js` (which declares `vus: 3`), it returns 7,
the value of the fixed default script, and `K6.run` stores that 7 in the
run record for the other script's path.  This contradicts the function's
own signature and its log line `f"Script \x7bscript_path\x7d declares
\x7bvus\x7d vus"`. -/
theorem vus_parsed_from_default_script :
    getVus "vus: 3" = some 3 ∧
    filesTwoScripts "/etc/k6/scripts/tester/load.js" = some "vus: 3" ∧
    get_vus_from_script filesTwoScripts "/etc/k6/scripts/tester/load.js" = .ok 7 ∧
    run filesTwoScripts "/etc/k6/scripts/tester/load.js" "u" "d" =
      .ok ⟨"/etc/k6/scripts/tester/load.js", 7, ⟨"u", "d"⟩, idleStatus⟩ :=
  ⟨rfl, rfl, rfl, rfl⟩

/-! ## JSON marshalling lemmas (towards C10) -/

theorem digitChar_props {c : Char} (h : c.isDigit = true) :
    jsonWs c = false ∧ c ≠ 'n' ∧ c ≠ 't' ∧ c ≠ 'f' ∧ c ≠ '"' ∧ c ≠ '[' ∧
      c ≠ lbrace ∧ c ≠ '-' ∧ c ≠ ']' ∧ c ≠ rbrace ∧ c ≠ ',' := by
  refine ⟨?_, ?_, ?_, ?_, ?_, ?_, ?_, ?_, ?_, ?_, ?_⟩
  · cases hws : jsonWs c with
    | false => rfl
    | true =>
      rw [jsonWs] at hws
      simp only [Bool.or_eq_true, decide_eq_true_eq] at hws
      rcases hws with ((rfl | rfl) | rfl) | rfl <;> exact absurd h (by decide)
  all_goals (intro hc; subst hc; exact absurd h (by decide))

theorem charDigit_isDigit {d : Nat} (h : d < 10) :
    (Char.ofNat (48 + d)).isDigit = true := by
  interval_cases d <;> decide

theorem charDigit_toNat {d : Nat} (h : d < 10) :
    (Char.ofNat (48 + d)).toNat = 48 + d := by
  interval_cases d <;> decide

theorem digitsToNat_append (l : List Char) (c : Char) :
    digitsToNat (l ++ [c]) = 10 * digitsToNat l + (c.toNat - 48) := by
  simp [digitsToNat, List.foldl_append]

theorem natDigitsAux_spec (fuel n : Nat) (h : n ≤ fuel) :
    natDigitsAux fuel n ≠ [] ∧ (∀ c ∈ natDigitsAux fuel n, c.isDigit = true) ∧
      digitsToNat (natDigitsAux fuel n) = n := by
  induction fuel generalizing n with
  | zero =>
    have hn : n = 0 := by omega
    subst hn
    refine ⟨by simp [natDigitsAux], ?_, by simp [natDigitsAux, digitsToNat]⟩
    intro c hc
    rcases List.mem_singleton.mp hc with rfl
    decide
  | succ fuel ih =>
    rw [natDigitsAux]
    by_cases hlt : n < 10
    · rw [if_pos hlt]
      refine ⟨by simp, ?_, ?_⟩
      · intro c hc
        rcases List.mem_singleton.mp hc with rfl
        exact charDigit_isDigit hlt
      · simp only [digitsToNat, List.foldl]
        rw [charDigit_toNat hlt]
        omega
    · rw [if_neg hlt]
      have hdiv : n / 10 ≤ fuel := by omega
      obtain ⟨hne, hdig, hval⟩ := ih (n / 10) hdiv
      refine ⟨by simp, ?_, ?_⟩
      · intro c hc
        rcases List.mem_append.mp hc with hm | hm
        · exact hdig c hm
        · rcases List.mem_singleton.mp hm with rfl
          exact charDigit_isDigit (Nat.mod_lt _ (by omega))
      · rw [digitsToNat_append, hval, charDigit_toNat (Nat.mod_lt _ (by omega))]
        omega

theorem natDigits_spec (n : Nat) :
    natDigits n ≠ [] ∧ (∀ c ∈ natDigits n, c.isDigit = true) ∧
      digitsToNat (natDigits n) = n :=
  natDigitsAux_spec n n (Nat.le_refl n)

theorem takeWhile_append_all {p : Char → Bool} {l : List Char} (r : List Char)
    (h : ∀ c ∈ l, p c = true) : (l ++ r).takeWhile p = l ++ r.takeWhile p := by
  induction l with
  | nil => simp
  | cons x xs ih =>
    simp only [List.cons_append, List.takeWhile]
    rw [h x (List.mem_cons_self _ _)]
    simp [ih (fun c hc => h c (List.mem_cons_of_mem _ hc))]

theorem dropWhile_append_all {p : Char → Bool} {l : List Char} (r : List Char)
    (h : ∀ c ∈ l, p c = true) : (l ++ r).dropWhile p = r.dropWhile p := by
  induction l with
  | nil => simp
  | cons x xs ih =>
    simp only [List.cons_append, List.dropWhile]
    rw [h x (List.mem_cons_self _ _)]
    exact ih (fun c hc => h c (List.mem_cons_of_mem _ hc))

theorem takeWhile_head_false {p : Char → Bool} {c : Char} {cs : List Char}
    (h : p c = false) : (c :: cs).takeWhile p = [] := by
  simp [List.takeWhile, h]

theorem dropWhile_head_false {p : Char → Bool} {c : Char} {cs : List Char}
    (h : p c = false) : (c :: cs).dropWhile p = c :: cs := by
  simp [List.dropWhile, h]

theorem takeWhile_digits_boundary {r : List Char} (hb : numBoundary r) :
    r.takeWhile Char.isDigit = [] := by
  cases r with
  | nil => rfl
  | cons c cs => exact takeWhile_head_false (hb c cs rfl)

theorem dropWhile_digits_boundary {r : List Char} (hb : numBoundary r) :
    r.dropWhile Char.isDigit = r := by
  cases r with
  | nil => rfl
  | cons c cs => exact dropWhile_head_false (hb c cs rfl)

theorem isEmpty_false_of_ne_nil {l : List Char} (h : l ≠ []) : l.isEmpty = false := by
  cases l with
  | nil => exact absurd rfl h
  | cons c cs => rfl

theorem skipWs_cons_false {c : Char} {cs : List Char} (h : jsonWs c = false) :
    skipWs (c :: cs) = c :: cs := by
  simp [skipWs, List.dropWhile, h]

theorem skipWs_cons_true {c : Char} {cs : List Char} (h : jsonWs c = true) :
    skipWs (c :: cs) = skipWs cs := by
  simp [skipWs, List.dropWhile, h]

theorem dumpV_head (v : JVal) :
    ∃ c cs, dumpV v = c :: cs ∧ jsonWs c = false ∧ c ≠ ']' ∧ c ≠ rbrace := by
  cases v with
  | jnull => exact ⟨'n', _, rfl, by decide, by decide, by decide⟩
  | jbool b =>
    cases b with
    | true => refine ⟨'t', _, rfl, ?_, ?_, ?_⟩ <;> decide
    | false => refine ⟨'f', _, rfl, ?_, ?_, ?_⟩ <;> decide
  | jint n =>
    by_cases hn : n < 0
    · exact ⟨'-', _, by rw [dumpV, intChars, if_pos hn], by decide, by decide, by decide⟩
    · obtain ⟨hne, hdig, _⟩ := natDigits_spec n.toNat
      cases heq : natDigits n.toNat with
      | nil => exact absurd heq hne
      | cons c cs =>
        have hc : c.isDigit = true := hdig c (by rw [heq]; exact List.mem_cons_self _ _)
        obtain ⟨hws, _, _, _, _, _, _, _, h1, h2, _⟩ := digitChar_props hc
        exact ⟨c, cs, by rw [dumpV, intChars, if_neg hn, heq], hws, h1, h2⟩
  | jstr s => exact ⟨'"', _, rfl, by decide, by decide, by decide⟩
  | jarr xs =>
    cases xs with
    | nil => exact ⟨'[', _, rfl, by decide, by decide, by decide⟩
    | cons x rest => exact ⟨'[', _, rfl, by decide, by decide, by decide⟩
  | jobj kvs =>
    cases kvs with
    | nil => exact ⟨lbrace, _, rfl, by decide, by decide, by decide⟩
    | cons kv rest =>
      obtain ⟨k, v⟩ := kv
      exact ⟨lbrace, '"' :: k.toList ++ '"' :: ':' :: ' ' :: dumpV v ++ dumpM rest ++ [rbrace],
        rfl, by decide, by decide, by decide⟩

theorem skipWs_dumpV (v : JVal) (r : List Char) :
    skipWs (dumpV v ++ r) = dumpV v ++ r := by
  obtain ⟨c, cs, hd, hws, _, _⟩ := dumpV_head v
  rw [hd, List.cons_append, skipWs_cons_false hws]

theorem parseStrBody_clean (s : String) (rest : List Char)
    (h : s.toList.all cleanChar = true) :
    parseStrBody (s.toList ++ '"' :: rest) = some (s, rest) := by
  have hall : ∀ c ∈ s.toList, (!(c = '"' || c = '\\')) = true := by
    intro c hc
    have hcc := List.all_eq_true.mp h c hc
    simp only [cleanChar, Bool.and_eq_true, decide_eq_true_eq] at hcc
    simp [hcc.1.2, hcc.2]
  unfold parseStrBody
  dsimp only
  rw [dropWhile_append_all _ hall, dropWhile_head_false (by decide)]
  rw [takeWhile_append_all _ hall, takeWhile_head_false (by decide), List.append_nil]
  rfl

theorem parseNumTok_intChars (n : Int) (rest : List Char) (hb : numBoundary rest) :
    parseNumTok (intChars n ++ rest) = some (n, rest) := by
  by_cases hn : n < 0
  · rw [intChars, if_pos hn]
    obtain ⟨hne, hdig, hval⟩ := natDigits_spec (-n).toNat
    simp only [List.cons_append, parseNumTok]
    simp only [if_true]
    rw [takeWhile_append_all _ hdig, takeWhile_digits_boundary hb, List.append_nil]
    rw [isEmpty_false_of_ne_nil hne]
    rw [dropWhile_append_all _ hdig, dropWhile_digits_boundary hb]
    simp only [Bool.false_eq_true, if_false]
    rw [hval]
    have : ((-n).toNat : Int) = -n := Int.toNat_of_nonneg (by omega)
    rw [this]
    simp
  · rw [intChars, if_neg hn]
    obtain ⟨hne, hdig, hval⟩ := natDigits_spec n.toNat
    cases heq : natDigits n.toNat with
    | nil => exact absurd heq hne
    | cons d ds =>
      have hd : d.isDigit = true := hdig d (by rw [heq]; exact List.mem_cons_self _ _)
      obtain ⟨_, _, _, _, _, _, _, hdm, _, _, _⟩ := digitChar_props hd
      simp only [List.cons_append, parseNumTok]
      rw [if_neg hdm]
      rw [← List.cons_append]
      have hdig' : ∀ c ∈ d :: ds, c.isDigit = true := by rw [← heq]; exact hdig
      rw [takeWhile_append_all _ hdig', takeWhile_digits_boundary hb, List.append_nil]
      rw [isEmpty_false_of_ne_nil (by simp)]
      rw [dropWhile_append_all _ hdig', dropWhile_digits_boundary hb]
      simp only [Bool.false_eq_true, if_false]
      rw [← heq, hval]
      have : (n.toNat : Int) = n := Int.toNat_of_nonneg (by omega)
      rw [this]

theorem dumpL_boundary (xs : List JVal) (rest : List Char) :
    numBoundary (dumpL xs ++ ']' :: rest) := by
  cases xs with
  | nil =>
    intro c cs' h
    simp only [dumpL, List.nil_append] at h
    injection h with h1 _
    rw [← h1]
    decide
  | cons y ys =>
    intro c cs' h
    simp only [dumpL, List.cons_append] at h
    injection h with h1 _
    rw [← h1]
    decide

theorem dumpM_boundary (kvs : List (String × JVal)) (rest : List Char) :
    numBoundary (dumpM kvs ++ rbrace :: rest) := by
  cases kvs with
  | nil =>
    intro c cs' h
    simp only [dumpM, List.nil_append] at h
    injection h with h1 _
    rw [← h1]
    decide
  | cons kv kvs' =>
    obtain ⟨k, v⟩ := kv
    intro c cs' h
    simp only [dumpM, List.cons_append] at h
    injection h with h1 _
    rw [← h1]
    decide

mutual

theorem parseVal_dumpV (fuel : Nat) (cs : List Char) (v : JVal) (rest : List Char)
    (hcs : skipWs cs = dumpV v ++ rest) (hwf : wfV v = true) (hsz : szV v < fuel)
    (hb : numBoundary rest) :
    parseVal fuel cs = some (v, rest) := by
  cases fuel with
  | zero => exact absurd hsz (Nat.not_lt_zero _)
  | succ f =>
    cases v with
    | jnull =>
      simp only [dumpV, List.cons_append, List.nil_append] at hcs
      simp only [parseVal]
      rw [hcs]
      rfl
    | jbool b =>
      cases b with
      | true =>
        simp only [dumpV, List.cons_append, List.nil_append] at hcs
        simp only [parseVal]
        rw [hcs]
        rfl
      | false =>
        simp only [dumpV, List.cons_append, List.nil_append] at hcs
        simp only [parseVal]
        rw [hcs]
        rfl
    | jstr s =>
      simp only [dumpV, List.cons_append, List.append_assoc, List.singleton_append,
        List.nil_append] at hcs
      simp only [wfV] at hwf
      simp only [parseVal]
      rw [hcs]
      dsimp only
      rw [if_neg (by decide), if_neg (by decide), if_neg (by decide), if_pos rfl]
      rw [parseStrBody_clean s rest hwf]
      rfl
    | jint n =>
      by_cases hn : n < 0
      · have hdump : dumpV (.jint n) = '-' :: natDigits (-n).toNat := by
          rw [dumpV, intChars, if_pos hn]
        rw [hdump, List.cons_append] at hcs
        simp only [parseVal]
        rw [hcs]
        dsimp only
        rw [if_neg (by decide), if_neg (by decide), if_neg (by decide), if_neg (by decide),
            if_neg (by decide), if_neg (by decide)]
        rw [show ('-' :: (natDigits (-n).toNat ++ rest)) = intChars n ++ rest from by
              rw [intChars, if_pos hn, List.cons_append]]
        rw [parseNumTok_intChars n rest hb]
        rfl
      · obtain ⟨hne0, hdig0, _⟩ := natDigits_spec n.toNat
        cases heq : natDigits n.toNat with
        | nil => exact absurd heq hne0
        | cons d ds =>
          have hdd : d.isDigit = true := hdig0 d (by rw [heq]; exact List.mem_cons_self _ _)
          obtain ⟨_, w1, w2, w3, w4, w5, w6, _, _, _, _⟩ := digitChar_props hdd
          have hdump : dumpV (.jint n) = d :: ds := by
            rw [dumpV, intChars, if_neg hn, heq]
          rw [hdump, List.cons_append] at hcs
          simp only [parseVal]
          rw [hcs]
          dsimp only
          rw [if_neg w1, if_neg w2, if_neg w3, if_neg w4, if_neg w5, if_neg w6]
          rw [show (d :: (ds ++ rest)) = intChars n ++ rest from by
                rw [intChars, if_neg hn, heq, List.cons_append]]
          rw [parseNumTok_intChars n rest hb]
          rfl
    | jarr xs =>
      cases xs with
      | nil =>
        simp only [dumpV, List.cons_append, List.nil_append] at hcs
        simp only [parseVal]
        rw [hcs]
        rfl
      | cons x xs' =>
        simp only [dumpV, List.cons_append, List.append_assoc, List.singleton_append,
        List.nil_append] at hcs
        simp only [wfV, wfL, Bool.and_eq_true] at hwf
        simp only [szV, szL] at hsz
        simp only [parseVal]
        rw [hcs]
        dsimp only
        rw [if_neg (by decide), if_neg (by decide), if_neg (by decide), if_neg (by decide),
            if_pos rfl]
        rw [skipWs_dumpV x (dumpL xs' ++ ']' :: rest)]
        obtain ⟨c0, cs0, hd0, hws0, hne0, _⟩ := dumpV_head x
        rw [hd0, List.cons_append]
        rw [show (c0 :: (cs0 ++ (dumpL xs' ++ ']' :: rest))).head? = some c0 from rfl]
        rw [if_neg (by simp [hne0])]
        rw [parseItems_dumpA f (c0 :: (cs0 ++ (dumpL xs' ++ ']' :: rest))) x xs' [] rest
              (by rw [skipWs_cons_false hws0, ← List.cons_append, ← hd0])
              hwf.1 hwf.2 (by omega) hb]
        simp
    | jobj kvs =>
      cases kvs with
      | nil =>
        simp only [dumpV, List.cons_append, List.nil_append] at hcs
        simp only [parseVal]
        rw [hcs]
        rfl
      | cons kv kvs' =>
        obtain ⟨k, w⟩ := kv
        simp only [dumpV, List.cons_append, List.append_assoc, List.singleton_append,
        List.nil_append] at hcs
        simp only [wfV, wfM, Bool.and_eq_true] at hwf
        simp only [szV, szM] at hsz
        simp only [parseVal]
        rw [hcs]
        dsimp only
        rw [if_neg (by decide), if_neg (by decide), if_neg (by decide), if_neg (by decide),
            if_neg (by decide), if_pos rfl]
        rw [skipWs_cons_false (by decide)]
        rw [show ('"' :: (k.toList ++ '"' :: ':' :: ' ' ::
              (dumpV w ++ (dumpM kvs' ++ rbrace :: rest)))).head? = some '"' from rfl]
        rw [if_neg (by decide)]
        rw [parseMembers_dumpO f ('"' :: (k.toList ++ '"' :: ':' :: ' ' ::
              (dumpV w ++ (dumpM kvs' ++ rbrace :: rest)))) k w kvs' [] rest
              (skipWs_cons_false (by decide))
              hwf.1.1 hwf.1.2 hwf.2 (by omega) hb]
        simp

theorem parseItems_dumpA (fuel : Nat) (cs : List Char) (x : JVal) (xs : List JVal)
    (acc : List JVal) (rest : List Char)
    (hcs : skipWs cs = dumpV x ++ (dumpL xs ++ ']' :: rest))
    (hwx : wfV x = true) (hwxs : wfL xs = true)
    (hsz : 1 + szV x + szL xs < fuel) (hb : numBoundary rest) :
    parseItems fuel cs acc = some (.jarr (acc ++ x :: xs), rest) := by
  cases fuel with
  | zero => exact absurd hsz (Nat.not_lt_zero _)
  | succ f =>
    simp only [parseItems]
    rw [parseVal_dumpV f cs x (dumpL xs ++ ']' :: rest) hcs hwx (by omega)
          (dumpL_boundary xs rest)]
    dsimp only
    cases xs with
    | nil =>
      simp only [dumpL, List.nil_append]
      rw [skipWs_cons_false (by decide)]
      rfl
    | cons y ys =>
      simp only [wfL, Bool.and_eq_true] at hwxs
      simp only [szL] at hsz
      simp only [dumpL, List.cons_append, List.append_assoc]
      rw [skipWs_cons_false (by decide)]
      dsimp only
      rw [if_pos rfl]
      rw [parseItems_dumpA f (' ' :: (dumpV y ++ (dumpL ys ++ ']' :: rest))) y ys
            (acc ++ [x]) rest
            (by rw [skipWs_cons_true (by decide)]; exact skipWs_dumpV y _)
            hwxs.1 hwxs.2 (by omega) hb]
      simp

theorem parseMembers_dumpO (fuel : Nat) (cs : List Char) (k : String) (v : JVal)
    (kvs : List (String × JVal)) (acc : List (String × JVal)) (rest : List Char)
    (hcs : skipWs cs = '"' :: (k.toList ++ '"' :: ':' :: ' ' ::
      (dumpV v ++ (dumpM kvs ++ rbrace :: rest))))
    (hk : k.toList.all cleanChar = true) (hv : wfV v = true) (hkvs : wfM kvs = true)
    (hsz : 1 + szV v + szM kvs < fuel) (hb : numBoundary rest) :
    parseMembers fuel cs acc = some (.jobj (acc ++ (k, v) :: kvs), rest) := by
  cases fuel with
  | zero => exact absurd hsz (Nat.not_lt_zero _)
  | succ f =>
    simp only [parseMembers]
    rw [hcs]
    dsimp only
    rw [if_pos rfl]
    rw [show (k.toList ++ '"' :: ':' :: ' ' :: (dumpV v ++ (dumpM kvs ++ rbrace :: rest))) =
          (k.toList ++ '"' :: (':' :: ' ' :: (dumpV v ++ (dumpM kvs ++ rbrace :: rest))))
        from rfl]
    rw [parseStrBody_clean k _ hk]
    dsimp only
    rw [skipWs_cons_false (by decide)]
    dsimp only
    rw [if_pos rfl]
    rw [parseVal_dumpV f (' ' :: (dumpV v ++ (dumpM kvs ++ rbrace :: rest))) v
          (dumpM kvs ++ rbrace :: rest)
          (by rw [skipWs_cons_true (by decide)]; exact skipWs_dumpV v _)
          hv (by omega) (dumpM_boundary kvs rest)]
    dsimp only
    cases kvs with
    | nil =>
      simp only [dumpM, List.nil_append]
      rw [skipWs_cons_false (by decide)]
      dsimp only
      rw [if_neg (by decide), if_pos rfl]
    | cons kv2 kvs' =>
      obtain ⟨k2, v2⟩ := kv2
      simp only [wfM, Bool.and_eq_true] at hkvs
      simp only [szM] at hsz
      simp only [dumpM, List.cons_append, List.append_assoc]
      rw [skipWs_cons_false (by decide)]
      dsimp only
      rw [if_pos rfl]
      rw [parseMembers_dumpO f (' ' :: ('"' :: (k2.toList ++ '"' :: ':' :: ' ' ::
            (dumpV v2 ++ (dumpM kvs' ++ rbrace :: rest))))) k2 v2 kvs'
            (acc ++ [(k, v)]) rest
            (by rw [skipWs_cons_true (by decide)]; exact skipWs_cons_false (by decide))
            hkvs.1.1 hkvs.1.2 hkvs.2 (by omega) hb]
      simp

end

mutual

theorem szV_le_dumpV (v : JVal) : szV v ≤ (dumpV v).length := by
  cases v with
  | jnull => simp [szV, dumpV]
  | jbool b => cases b <;> simp [szV, dumpV]
  | jint n =>
    rw [szV, dumpV, intChars]
    by_cases hn : n < 0
    · rw [if_pos hn]
      simp
    · rw [if_neg hn]
      exact List.length_pos.mpr (natDigits_spec n.toNat).1
  | jstr s => simp [szV, dumpV]
  | jarr xs =>
    cases xs with
    | nil => simp [szV, szL, dumpV]
    | cons x xs' =>
      have h1 := szV_le_dumpV x
      have h2 := szL_le_dumpL xs'
      simp only [szV, szL, dumpV, List.length_cons, List.length_append]
      omega
  | jobj kvs =>
    cases kvs with
    | nil => simp [szV, szM, dumpV]
    | cons kv kvs' =>
      obtain ⟨k, w⟩ := kv
      have h1 := szV_le_dumpV w
      have h2 := szM_le_dumpM kvs'
      simp only [szV, szM, dumpV, List.length_cons, List.length_append]
      omega

theorem szL_le_dumpL (xs : List JVal) : szL xs ≤ (dumpL xs).length := by
  cases xs with
  | nil => simp [szL, dumpL]
  | cons y ys =>
    have h1 := szV_le_dumpV y
    have h2 := szL_le_dumpL ys
    simp only [szL, dumpL, List.length_cons, List.length_append]
    omega

theorem szM_le_dumpM (kvs : List (String × JVal)) : szM kvs ≤ (dumpM kvs).length := by
  cases kvs with
  | nil => simp [szM, dumpM]
  | cons kv kvs' =>
    obtain ⟨k, w⟩ := kv
    have h1 := szV_le_dumpV w
    have h2 := szM_le_dumpM kvs'
    simp only [szM, dumpM, List.length_cons, List.length_append]
    omega

end

theorem loads_dumps (v : JVal) (h : wfV v = true) : loads (dumps v) = some v := by
  rw [loads]
  rw [show (dumps v).toList = dumpV v from rfl,
      show (dumps v).length = (dumpV v).length from rfl]
  rw [parseVal_dumpV ((dumpV v).length + 1) (dumpV v) v []
        (by simpa using skipWs_dumpV v []) h
        (by have := szV_le_dumpV v; omega)
        (fun c cs' hcon => List.noConfusion hcon)]
  rfl

theorem dumps_ne_empty (v : JVal) : dumps v ≠ "" := by
  obtain ⟨c, cs, hd, _, _, _⟩ := dumpV_head v
  intro hcon
  have := congrArg String.toList hcon
  rw [show (dumps v).toList = dumpV v from rfl, hd] at this
  exact List.noConfusion this

/-- Claim C10: Peer-data access round-trips when the peer relation exists:
for every databag entry and every (well-formed, non-empty) dict `d`,
`get_peer_data` after `set_peer_data(databag, d)` returns `d`, and
`get_peer_data` after `clear_peer_data(databag)` returns `None`; when no
peer relation exists, `set_peer_data` and `clear_peer_data` are no-ops
and `get_peer_data` returns `None`. -/
theorem peer_data_roundtrip (bag : Option String) (d : List (String × JVal))
    (hwf : wfV (.jobj d) = true) (hne : d ≠ []) :
    get_peer_data true (set_peer_data true bag d) = .ok (some (.jobj d)) ∧
    get_peer_data true (clear_peer_data true bag) = .ok none ∧
    set_peer_data false bag d = bag ∧
    clear_peer_data false bag = bag ∧
    get_peer_data false bag = .ok none := by
  refine ⟨?_, rfl, rfl, rfl, rfl⟩
  rw [set_peer_data, if_pos rfl, get_peer_data, if_pos rfl]
  rw [if_neg (dumps_ne_empty (.jobj d)), loads_dumps _ hwf]

/-- Witness for C10 at a concrete input. -/
theorem peer_data_roundtrip_witness :
    wfV (.jobj dRecordWitness) = true ∧ dRecordWitness ≠ [] ∧
    (get_peer_data true (set_peer_data true none dRecordWitness) =
       .ok (some (.jobj dRecordWitness)) ∧
     get_peer_data true (clear_peer_data true none) = .ok none ∧
     set_peer_data false none dRecordWitness = none ∧
     clear_peer_data false none = none ∧
     get_peer_data false none = .ok none) :=
  ⟨rfl, by simp [dRecordWitness],
   peer_data_roundtrip none dRecordWitness rfl (by simp [dRecordWitness])⟩

end K6Model
